import Mathlib

/-!
Verification of the cvecat repository (a CLI that fetches CVE records and
renders them through a template).  Go strings are modelled as `List Char`
(the inputs relevant to the specification are ASCII, where Go's byte-wise
operations and rune-wise operations agree).  Fallible Go code is modelled
with `Except`/`Option`; a Go runtime panic (out-of-range slice) is modelled
as an explicit `panic`-like constructor so that safety claims are statable.
-/

namespace Cvecat

/-- Characters of a Lean string literal, used to write Go string constants. -/
def chars (s : String) : List Char := s.data

/-- Decimal digit test, Go's `[0-9]` character class. -/
def isDigitCh (c : Char) : Bool := '0' ≤ c && c ≤ '9'

/-- Go `strings.Split(id, "-")`, specialised to a one-character separator.
Auxiliary: returns the first field and the remaining fields. -/
def goSplitAux (sep : Char) : List Char → List Char × List (List Char)
  | [] => ([], [])
  | c :: rest =>
    let p := goSplitAux sep rest
    if c = sep then ([], p.1 :: p.2) else (c :: p.1, p.2)

/-- Go `strings.Split` on a one-character separator: always returns at least
one field, and `goSplit sep [] = [[]]` as in Go. -/
def goSplit (sep : Char) (s : List Char) : List (List Char) :=
  (goSplitAux sep s).1 :: (goSplitAux sep s).2

/-- Go `strings.ToUpper` (ASCII fragment, which is all the parser compares). -/
def goToUpper (s : List Char) : List Char := s.map Char.toUpper

/-- The literal `"CVE"`. -/
def cveChars : List Char := ['C', 'V', 'E']

/-- The classified failures of `parseID` in `cmd/cvecat/main.go`
(`errInvalidCVE`, `errInvalidCVEPrefix`, `errInvalidCVEYear`,
`errInvalidCVEID`). -/
inductive ParseErr where
  | invalidCVE
  | invalidPfx
  | invalidYear
  | invalidSeqID
deriving DecidableEq, Repr

/-- `^[0-9]{4}$` from `parseID`: exactly four decimal digits. -/
def isDigits4 (s : List Char) : Bool := s.length = 4 && s.all isDigitCh

/-- `^[0-9][0-9][0-9][0-9]+$` from `parseID`: four or more decimal digits. -/
def isDigits4Plus (s : List Char) : Bool := 4 ≤ s.length && s.all isDigitCh

/-- `if len(ref) < 4 { ref = strings.Repeat("0", 4-len(ref)) + ref }`. -/
def padSeq (r : List Char) : List Char :=
  if r.length < 4 then List.replicate (4 - r.length) '0' ++ r else r

/-- The `switch len(p)` of `parseID` (main.go:208-222): selects prefix, year
and sequence id from the split fields, defaulting the prefix to `"CVE"` and
the year to the current year (`nowYear`, the textual form of
`time.Now().Year()`, passed explicitly since the embedding is pure).
`none` is the `default` branch (`errInvalidCVE`). -/
def splitPartsL (nowYear : List Char) :
    List (List Char) → Option (List Char × List Char × List Char)
  | [r] => some (cveChars, nowYear, r)
  | [y, r] => some (cveChars, y, r)
  | [p, y, r] => some (goToUpper p, y, r)
  | _ => none

/-- Field selection of `parseID` applied to `strings.Split(id, "-")`. -/
def splitParts (nowYear id : List Char) :
    Option (List Char × List Char × List Char) :=
  splitPartsL nowYear (goSplit '-' id)

/-- The validation tail of `parseID` (main.go:223-238): zero-pad the sequence
id, then check prefix, year, sequence id in that fixed order. -/
def checkID (pfx year ref0 : List Char) :
    Except ParseErr (List Char × List Char × List Char) :=
  if pfx ≠ cveChars then .error .invalidPfx
  else if isDigits4 year = false then .error .invalidYear
  else if isDigits4Plus (padSeq ref0) = false then .error .invalidSeqID
  else .ok (pfx, year, padSeq ref0)

/-- `parseID` from `cmd/cvecat/main.go:205-239`. -/
def parseID (nowYear id : List Char) :
    Except ParseErr (List Char × List Char × List Char) :=
  match splitParts nowYear id with
  | none => .error .invalidCVE
  | some (p, y, r) => checkID p y r

/-- Result of a Go function that can also panic at runtime. -/
inductive GoResult (α : Type) where
  | goPanic
  | err (e : ParseErr)
  | ok (a : α)
deriving DecidableEq, Repr

/-- The fixed URL base of `geturl` (main.go:198). -/
def cveBase : List Char :=
  chars "https://raw.githubusercontent.com/CVEProject/cvelistV5/main/cves/"

/-- The `fmt.Sprintf` of `geturl` (main.go:197-202):
`<base><year>/<ref minus last 3 chars>xxx/<prefix>-<year>-<ref>.json`.
`ref.take (ref.length - 3)` is Go's `ref[0:len(ref)-3]`. -/
def mkURL (pfx year ref : List Char) : List Char :=
  cveBase ++ year ++ '/' :: (ref.take (ref.length - 3) ++
    (chars "xxx/" ++ (pfx ++ '-' :: (year ++ '-' :: (ref ++ chars ".json")))))

/-- `geturl` from `cmd/cvecat/main.go:189-203`.  The Go slice expression
`ref[0:len(ref)-3]` panics when `len(ref) < 3` (the bound `len(ref)-3` is a
negative Go `int`); the embedding makes that case explicit. -/
def geturl (nowYear id : List Char) : GoResult (List Char) :=
  if id = ['-'] then .ok ['-']
  else
    match parseID nowYear id with
    | .error e => .err e
    | .ok (pfx, year, ref) =>
      if 3 ≤ ref.length then .ok (mkURL pfx year ref) else .goPanic

/-! ### Lemmas about `goSplit` and digit strings -/

theorem goSplitAux_of_not_mem {sep : Char} :
    ∀ xs : List Char, sep ∉ xs → goSplitAux sep xs = (xs, []) := by
  intro xs h
  induction xs with
  | nil => rfl
  | cons c r ih =>
    have hc : ¬ c = sep := by
      intro e; exact h (by simp [e])
    have hr : sep ∉ r := fun hm => h (by simp [hm])
    simp [goSplitAux, hc, ih hr]

theorem goSplitAux_append_sep {sep : Char} :
    ∀ xs rest : List Char, sep ∉ xs →
      goSplitAux sep (xs ++ sep :: rest) =
        (xs, (goSplitAux sep rest).1 :: (goSplitAux sep rest).2) := by
  intro xs rest h
  induction xs with
  | nil => simp [goSplitAux]
  | cons c r ih =>
    have hc : ¬ c = sep := by
      intro e; exact h (by simp [e])
    have hr : sep ∉ r := fun hm => h (by simp [hm])
    simp [goSplitAux, hc, ih hr]

theorem goSplit_single {sep : Char} (xs : List Char) (h : sep ∉ xs) :
    goSplit sep xs = [xs] := by
  simp [goSplit, goSplitAux_of_not_mem xs h]

theorem goSplit_append_sep {sep : Char} (xs rest : List Char) (h : sep ∉ xs) :
    goSplit sep (xs ++ sep :: rest) = xs :: goSplit sep rest := by
  simp [goSplit, goSplitAux_append_sep xs rest h]

theorem goSplit_three {sep : Char} (p y s : List Char)
    (hp : sep ∉ p) (hy : sep ∉ y) (hs : sep ∉ s) :
    goSplit sep (p ++ sep :: (y ++ sep :: s)) = [p, y, s] := by
  rw [goSplit_append_sep p _ hp, goSplit_append_sep y s hy, goSplit_single s hs]

theorem ne_dash_of_isDigitCh {c : Char} (h : isDigitCh c = true) : c ≠ '-' := by
  intro e; subst e; exact absurd h (by decide)

theorem not_mem_dash_of_all_digits {s : List Char}
    (h : s.all isDigitCh = true) : '-' ∉ s := by
  intro hm
  exact ne_dash_of_isDigitCh (List.all_eq_true.mp h _ hm) rfl

theorem not_mem_dash_of_isDigits4 {s : List Char}
    (h : isDigits4 s = true) : '-' ∉ s := by
  have := (Bool.and_eq_true _ _).mp h
  exact not_mem_dash_of_all_digits this.2

theorem goToUpper_cve_shape {p : List Char} (h : goToUpper p = cveChars) :
    '-' ∉ p ∧ p.length = 3 := by
  constructor
  · intro hm
    have : Char.toUpper '-' ∈ goToUpper p := List.mem_map_of_mem _ hm
    rw [h] at this
    exact absurd this (by decide)
  · have := congrArg List.length h
    simpa [goToUpper, cveChars] using this

theorem all_replicate_zero (n : Nat) :
    (List.replicate n '0').all isDigitCh = true := by
  induction n with
  | zero => rfl
  | succ k ih =>
    rw [List.replicate_succ, List.all_cons, ih]
    rfl

theorem all_digits_padSeq {s : List Char} (h : s.all isDigitCh = true) :
    (padSeq s).all isDigitCh = true := by
  unfold padSeq
  split
  · rw [List.all_append, all_replicate_zero, h]
    rfl
  · exact h

theorem padSeq_length_of_lt {s : List Char} (h : s.length < 4) :
    (padSeq s).length = 4 := by
  unfold padSeq
  rw [if_pos h]
  simp
  omega

theorem padSeq_length_ge (s : List Char) : s.length ≤ (padSeq s).length := by
  unfold padSeq
  split <;> simp

theorem isDigits4Plus_padSeq_of_digits {s : List Char}
    (h : s.all isDigitCh = true) :
    isDigits4Plus (padSeq s) = true := by
  unfold isDigits4Plus
  rw [Bool.and_eq_true]
  refine ⟨?_, all_digits_padSeq h⟩
  by_cases hl : s.length < 4
  · rw [padSeq_length_of_lt hl]; simp
  · have : 4 ≤ s.length := by omega
    have := padSeq_length_ge s
    simp only [decide_eq_true_eq]
    omega

theorem all_digits_of_padSeq {s : List Char}
    (h : (padSeq s).all isDigitCh = true) : s.all isDigitCh = true := by
  unfold padSeq at h
  split at h
  · rw [List.all_append, Bool.and_eq_true] at h
    exact h.2
  · exact h

/-- Inversion for `checkID`: what a successful validation tells us. -/
theorem checkID_ok_inv {p y r0 p' y' r' : List Char}
    (h : checkID p y r0 = .ok (p', y', r')) :
    p' = p ∧ y' = y ∧ r' = padSeq r0 ∧ p = cveChars ∧
      isDigits4 y = true ∧ isDigits4Plus (padSeq r0) = true := by
  unfold checkID at h
  by_cases h1 : p ≠ cveChars
  · rw [if_pos h1] at h; cases h
  · rw [if_neg h1] at h
    push_neg at h1
    cases h2 : isDigits4 y with
    | false => rw [h2, if_pos rfl] at h; cases h
    | true =>
      rw [h2, if_neg (by simp)] at h
      cases h3 : isDigits4Plus (padSeq r0) with
      | false => rw [h3, if_pos rfl] at h; cases h
      | true =>
        rw [h3, if_neg (by simp)] at h
        simp only [Except.ok.injEq, Prod.mk.injEq] at h
        exact ⟨h.1.symm, h.2.1.symm, h.2.2.symm, h1, rfl, rfl⟩

theorem checkID_ok {y r0 : List Char}
    (hy : isDigits4 y = true) (hr : isDigits4Plus (padSeq r0) = true) :
    checkID cveChars y r0 = .ok (cveChars, y, padSeq r0) := by
  unfold checkID
  rw [if_neg (by simp), if_neg (by simp [hy]), if_neg (by simp [hr])]

/-- Inversion for `parseID`: successful parses pass all three checks. -/
theorem parseID_ok_inv {ny id pfx y r : List Char}
    (h : parseID ny id = .ok (pfx, y, r)) :
    pfx = cveChars ∧ isDigits4 y = true ∧ isDigits4Plus r = true := by
  unfold parseID at h
  cases hsp : splitParts ny id with
  | none => rw [hsp] at h; cases h
  | some t =>
    obtain ⟨p0, y0, r0⟩ := t
    rw [hsp] at h
    obtain ⟨h1, h2, h3, h4, h5, h6⟩ := checkID_ok_inv h
    exact ⟨h1.trans h4, h2 ▸ h5, h3 ▸ h6⟩

/-- `parseID` of a well-formed three-part identifier reduces to `checkID`. -/
theorem parseID_three {ny p y s : List Char}
    (hp : '-' ∉ p) (hy : '-' ∉ y) (hs : '-' ∉ s) :
    parseID ny (p ++ '-' :: (y ++ '-' :: s)) = checkID (goToUpper p) y s := by
  unfold parseID splitParts
  rw [goSplit_three p y s hp hy hs]
  rfl

/-! ### Claims about identifier parsing and URL construction -/

/-- Claim C1: for every identifier `<pfx>-<year>-<seq>` whose first part uppercases
to `"CVE"`, whose year is exactly 4 decimal digits and whose zero-padded
sequence id is 4 or more decimal digits, `geturl` succeeds and returns the
fixed base followed by `<year>/<seq minus last 3 chars>xxx/CVE-<year>-<seq>.json`
(with the padded sequence id); moreover URL construction never fails (no
error, no panic) for any identifier accepted by `parseID`, and
`CVE-2019-5007` maps to bucket `5xxx`. -/
theorem c1_url_builder (ny p y s : List Char)
    (hp : goToUpper p = cveChars)
    (hy : isDigits4 y = true)
    (hs : isDigits4Plus (padSeq s) = true) :
    geturl ny (p ++ '-' :: (y ++ '-' :: s)) = .ok (mkURL cveChars y (padSeq s))
    ∧ (∀ id pfx yy rf, parseID ny id = .ok (pfx, yy, rf) →
        geturl ny id = .ok (mkURL pfx yy rf))
    ∧ geturl ny (chars "CVE-2019-5007") =
        .ok (chars "https://raw.githubusercontent.com/CVEProject/cvelistV5/main/cves/2019/5xxx/CVE-2019-5007.json") := by
  have hpd := goToUpper_cve_shape hp
  have hyd := not_mem_dash_of_isDigits4 hy
  have hsd : '-' ∉ s :=
    not_mem_dash_of_all_digits
      (all_digits_of_padSeq ((Bool.and_eq_true _ _).mp hs).2)
  refine ⟨?_, ?_, rfl⟩
  · have hid : p ++ '-' :: (y ++ '-' :: s) ≠ ['-'] := by
      intro h
      have := congrArg List.length h
      simp at this
      omega
    have h3 : 3 ≤ (padSeq s).length := by
      have := ((Bool.and_eq_true _ _).mp hs).1
      simp at this
      omega
    unfold geturl
    rw [if_neg hid, parseID_three hpd.1 hyd hsd, hp, checkID_ok hy hs]
    show (if 3 ≤ (padSeq s).length then
        GoResult.ok (mkURL cveChars y (padSeq s)) else GoResult.goPanic) = _
    rw [if_pos h3]
  · intro id pfx yy rf hpar
    by_cases hid : id = ['-']
    · subst hid
      have hbad : parseID ny ['-'] = .error .invalidYear := rfl
      rw [hbad] at hpar
      cases hpar
    · obtain ⟨hpfx, hyy, hrf⟩ := parseID_ok_inv hpar
      have h3 : 3 ≤ rf.length := by
        have := ((Bool.and_eq_true _ _).mp hrf).1
        simp at this
        omega
      unfold geturl
      rw [if_neg hid, hpar]
      show (if 3 ≤ rf.length then
          GoResult.ok (mkURL pfx yy rf) else GoResult.goPanic) = _
      rw [if_pos h3]

theorem c1_url_builder_witness :
    geturl (chars "2025") (chars "CVE" ++ '-' :: (chars "2019" ++ '-' :: chars "5007")) =
      .ok (mkURL cveChars (chars "2019") (padSeq (chars "5007"))) :=
  (c1_url_builder (chars "2025") (chars "CVE") (chars "2019") (chars "5007")
    (by decide) (by decide) (by decide)).1

/-- Claim C2: identifier validation runs in the fixed order split-count, prefix,
year, sequence id, each failure classified (`invalidCVE` for 4-or-more split
fields — a zero-field split cannot occur —, `invalidPfx` for a prefix that
does not uppercase to `"CVE"`, `invalidYear` for a year that is not exactly 4
digits, `invalidSeqID` for a padded sequence id that is not 4-or-more
digits), so an input with several defects reports the first in that order:
`XXX-2019-5007` gives `invalidPfx` and `CVE-19-5007` gives `invalidYear`. -/
theorem c2_validation_order (ny id : List Char) :
    1 ≤ (goSplit '-' id).length
    ∧ (4 ≤ (goSplit '-' id).length → parseID ny id = .error .invalidCVE)
    ∧ (∀ p y r, splitParts ny id = some (p, y, r) →
        (p ≠ cveChars → parseID ny id = .error .invalidPfx)
        ∧ (p = cveChars → isDigits4 y = false → parseID ny id = .error .invalidYear)
        ∧ (p = cveChars → isDigits4 y = true → isDigits4Plus (padSeq r) = false →
            parseID ny id = .error .invalidSeqID))
    ∧ parseID ny (chars "XXX-2019-5007") = .error .invalidPfx
    ∧ parseID ny (chars "CVE-19-5007") = .error .invalidYear := by
  refine ⟨by simp [goSplit], ?_, ?_, rfl, rfl⟩
  · intro h4
    unfold parseID splitParts
    rcases hl : goSplit '-' id with _ | ⟨a, _ | ⟨b, _ | ⟨c, _ | ⟨d, t⟩⟩⟩⟩ <;>
      rw [hl] at h4 <;> simp at h4
    rfl
  · intro p y r hsp
    have hpid : parseID ny id = checkID p y r := by
      unfold parseID
      rw [hsp]
    refine ⟨?_, ?_, ?_⟩
    · intro hne
      rw [hpid]
      unfold checkID
      rw [if_pos hne]
    · intro hpe hy4
      rw [hpid]
      unfold checkID
      rw [if_neg (by simp [hpe]), if_pos hy4]
    · intro hpe hy4 hr4
      rw [hpid]
      unfold checkID
      rw [if_neg (by simp [hpe]), if_neg (by simp [hy4]), if_pos hr4]

theorem c2_validation_order_witness :
    parseID (chars "2025") (chars "CVE-2019-5007-0") = .error .invalidCVE :=
  (c2_validation_order (chars "2025") (chars "CVE-2019-5007-0")).2.1 (by decide)

/-- Claim C3: a sequence id shorter than 4 characters is left-padded with `'0'` to
length exactly 4 before validation and before URL construction, and the
bucket is computed from the padded sequence: `cve-2019-07` parses to
`("CVE", "2019", "0007")` and its URL uses bucket `0xxx`. -/
theorem c3_zero_padding (ny p y s : List Char)
    (hp : goToUpper p = cveChars) (hy : isDigits4 y = true)
    (hs : s.all isDigitCh = true) (hlen : s.length < 4) :
    parseID ny (p ++ '-' :: (y ++ '-' :: s)) = .ok (cveChars, y, padSeq s)
    ∧ (padSeq s).length = 4
    ∧ padSeq s = List.replicate (4 - s.length) '0' ++ s
    ∧ parseID ny (chars "cve-2019-07") = .ok (cveChars, chars "2019", chars "0007")
    ∧ geturl ny (chars "cve-2019-07") =
        .ok (chars "https://raw.githubusercontent.com/CVEProject/cvelistV5/main/cves/2019/0xxx/CVE-2019-0007.json") := by
  have hpd := goToUpper_cve_shape hp
  have hyd := not_mem_dash_of_isDigits4 hy
  have hsd := not_mem_dash_of_all_digits hs
  have hs4 := isDigits4Plus_padSeq_of_digits hs
  refine ⟨?_, padSeq_length_of_lt hlen, ?_, rfl, rfl⟩
  · rw [parseID_three hpd.1 hyd hsd, hp, checkID_ok hy hs4]
  · unfold padSeq
    rw [if_pos hlen]

theorem c3_zero_padding_witness :
    parseID (chars "2025") (chars "cve" ++ '-' :: (chars "2019" ++ '-' :: chars "07")) =
      .ok (cveChars, chars "2019", padSeq (chars "07")) :=
  (c3_zero_padding (chars "2025") (chars "cve") (chars "2019") (chars "07")
    (by decide) (by decide) (by decide) (by decide)).1

/-- Claim C8: a 1-part identifier is treated as a bare sequence number with the
year defaulting to the current calendar year and the prefix to `"CVE"`; a
2-part identifier is `<year>-<seq>` with the prefix defaulting to `"CVE"`. -/
theorem c8_defaults (ny y r : List Char) (hr : '-' ∉ r) (hy : '-' ∉ y) :
    splitParts ny r = some (cveChars, ny, r)
    ∧ splitParts ny (y ++ '-' :: r) = some (cveChars, y, r)
    ∧ (r.all isDigitCh = true → isDigits4 ny = true →
        parseID ny r = .ok (cveChars, ny, padSeq r))
    ∧ (r.all isDigitCh = true → isDigits4 y = true →
        parseID ny (y ++ '-' :: r) = .ok (cveChars, y, padSeq r)) := by
  have h1 : goSplit '-' r = [r] := goSplit_single r hr
  have h2 : goSplit '-' (y ++ '-' :: r) = [y, r] := by
    rw [goSplit_append_sep y r hy, goSplit_single r hr]
  refine ⟨?_, ?_, ?_, ?_⟩
  · unfold splitParts
    rw [h1]
    rfl
  · unfold splitParts
    rw [h2]
    rfl
  · intro hd hny
    unfold parseID splitParts
    rw [h1]
    show checkID cveChars ny r = _
    exact checkID_ok hny (isDigits4Plus_padSeq_of_digits hd)
  · intro hd hy4
    unfold parseID splitParts
    rw [h2]
    show checkID cveChars y r = _
    exact checkID_ok hy4 (isDigits4Plus_padSeq_of_digits hd)

theorem c8_defaults_witness :
    parseID (chars "2025") (chars "5007") =
      .ok (cveChars, chars "2025", padSeq (chars "5007")) :=
  (c8_defaults (chars "2025") (chars "2019") (chars "5007")
    (by decide) (by decide)).2.2.1 (by decide) (by decide)

/-! ### The markdown-escape helper (`mdescape`, part_001:482-507)

`strings.NewReplacer` with sixteen one-byte patterns, each replaced by a
backslash followed by the character.  Since every pattern is a single
distinct byte and the replacer makes one left-to-right pass over the input
without rescanning its own output, it is the character-wise map below; the
backslash appearing first in the pattern list means an inserted escape
character is never itself re-escaped during the same pass. -/

/-- The fixed set of escaped characters, in the order of the source. -/
def mdSpecials : List Char := chars "\\*_#`[]()>+-.!|~"

/-- What the replacer emits for a single input character. -/
def mdEscapeChar (c : Char) : List Char :=
  if c ∈ mdSpecials then ['\\', c] else [c]

/-- `mdescape` from part_001:505-507: one left-to-right pass. -/
def mdescape : List Char → List Char
  | [] => []
  | c :: r => mdEscapeChar c ++ mdescape r

theorem length_mdEscapeChar (c : Char) :
    (mdEscapeChar c).length = 1 + (if c ∈ mdSpecials then 1 else 0) := by
  unfold mdEscapeChar
  split <;> simp

theorem length_mdescape (s : List Char) :
    (mdescape s).length =
      s.length + s.countP (fun c => decide (c ∈ mdSpecials)) := by
  induction s with
  | nil => rfl
  | cons c r ih =>
    rw [mdescape, List.length_append, ih, length_mdEscapeChar,
      List.length_cons, List.countP_cons]
    split
    · simp only [decide_eq_true_eq]
      rw [if_pos (by assumption)]
      omega
    · simp only [decide_eq_true_eq]
      rw [if_neg (by assumption)]
      omega

theorem backslash_mem_mdescape {s : List Char} {c : Char}
    (hc : c ∈ s) (hm : c ∈ mdSpecials) : '\\' ∈ mdescape s := by
  induction s with
  | nil => cases hc
  | cons a r ih =>
    rw [mdescape, List.mem_append]
    rcases List.mem_cons.mp hc with h | h
    · subst h
      left
      rw [mdEscapeChar, if_pos hm]
      simp
    · right
      exact ih h

/-- Claim C6: the markdown-escape helper prefixes every character of the fixed
special set with a backslash in a single left-to-right scan, leaves other
characters unchanged, maps `A*B|C` to `A\*B\|C`, and is not idempotent: a
second application doubles the escapes on any string containing a special
character. -/
theorem c6_mdescape :
    mdescape (chars "A*B|C") = chars "A\\*B\\|C"
    ∧ (∀ c, c ∈ mdSpecials → mdescape [c] = ['\\', c])
    ∧ (∀ c, c ∉ mdSpecials → mdescape [c] = [c])
    ∧ (∀ s c, c ∈ s → c ∈ mdSpecials → mdescape (mdescape s) ≠ mdescape s) := by
  refine ⟨by decide, ?_, ?_, ?_⟩
  · intro c hc
    show mdEscapeChar c ++ [] = _
    rw [mdEscapeChar, if_pos hc, List.append_nil]
  · intro c hc
    show mdEscapeChar c ++ [] = _
    rw [mdEscapeChar, if_neg hc, List.append_nil]
  · intro s c hcs hcm heq
    have hbs : '\\' ∈ mdescape s := backslash_mem_mdescape hcs hcm
    have hpos : 0 < (mdescape s).countP (fun c => decide (c ∈ mdSpecials)) := by
      refine List.countP_pos_iff.mpr ⟨'\\', hbs, by decide⟩
    have := congrArg List.length heq
    rw [length_mdescape (mdescape s)] at this
    omega

theorem c6_mdescape_witness :
    mdescape ['*'] = ['\\', '*']
    ∧ mdescape (mdescape (chars "A*B|C")) ≠ mdescape (chars "A*B|C") :=
  ⟨c6_mdescape.2.1 '*' (by decide),
   c6_mdescape.2.2.2 (chars "A*B|C") '*' (by decide) (by decide)⟩

/-! ### The timestamp decoder (`pkg/cve5/cve5.go`)

`Timestamp.UnmarshalJSON` strips the surrounding JSON quotes with
`strings.Trim(string(b), "\"")`, truncates to the first 19 characters when
`len(b) >= 19`, and parses the result with
`time.Parse("2006-01-02T15:04:05", ...)`.  The Go slice `s[:19]` panics when
the quote-stripped string is shorter than 19 characters, which the embedding
records as `none`/`TSResult.goPanic`.  The `time.Parse` reference layout is
modelled exactly: 4-digit year, fixed 2-digit month/day/minute/second,
1-or-2-digit hour (Go parses the `15` verb with a non-fixed-width number),
literal separators, no trailing text, and Go's range checks on hour, minute,
second, month and day of month (with the Gregorian leap-year rule). -/

/-- `strings.Trim(s, "\"")`: remove all leading and trailing quote chars. -/
def trimQuotes (s : List Char) : List Char :=
  ((s.dropWhile (· = '"')).reverse.dropWhile (· = '"')).reverse

/-- `trim` from cve5.go:17-23.  `none` models the runtime panic of `s[:19]`:
the guard tests `len(b)` (the raw bytes) but slices `s` (the quote-stripped
string), so the slice is out of bounds whenever `len(b) ≥ 19 > len(s)`. -/
def trimTS (b : List Char) : Option (List Char) :=
  if 19 ≤ b.length then
    if 19 ≤ (trimQuotes b).length then some ((trimQuotes b).take 19) else none
  else some (trimQuotes b)

/-- Numeric value of a decimal digit character. -/
def digitVal (c : Char) : Nat := c.toNat - 48

/-- The decimal digit character for `n % 10`-style values. -/
def digitChar (n : Nat) : Char := Char.ofNat (48 + n)

/-- Go `getnum(value, true)`: exactly two decimal digits. -/
def getnum2f : List Char → Option (Nat × List Char)
  | c1 :: c2 :: r =>
    if isDigitCh c1 && isDigitCh c2 then
      some (10 * digitVal c1 + digitVal c2, r)
    else none
  | _ => none

/-- Go `getnum(value, false)` for the hour: one digit, or two when the
second character is also a digit. -/
def getnumHr : List Char → Option (Nat × List Char)
  | [] => none
  | [c1] => if isDigitCh c1 then some (digitVal c1, []) else none
  | c1 :: c2 :: r =>
    if isDigitCh c1 then
      if isDigitCh c2 then some (10 * digitVal c1 + digitVal c2, r)
      else some (digitVal c1, c2 :: r)
    else none

/-- Go's `stdLongYear`: exactly four decimal digits. -/
def getnum4 : List Char → Option (Nat × List Char)
  | a :: b :: c :: d :: r =>
    if isDigitCh a && isDigitCh b && isDigitCh c && isDigitCh d then
      some (1000 * digitVal a + 100 * digitVal b + 10 * digitVal c + digitVal d, r)
    else none
  | _ => none

/-- Consume one literal layout character. -/
def expectCh (c : Char) : List Char → Option (List Char)
  | x :: r => if x = c then some r else none
  | [] => none

/-- A wall-clock value at whole-second precision (what `time.Parse` of the
second-precision layout produces; Go's `time.Time` carries no fraction
here). -/
structure DateTime where
  year : Nat
  month : Nat
  day : Nat
  hour : Nat
  minute : Nat
  second : Nat
deriving DecidableEq, Repr

/-- Gregorian leap-year rule used by Go's `daysIn`. -/
def isLeap (y : Nat) : Bool := y % 4 = 0 && (y % 100 ≠ 0 || y % 400 = 0)

/-- Days in a month, as in Go's `time` package. -/
def daysIn (m y : Nat) : Nat :=
  if m = 2 then (if isLeap y then 29 else 28)
  else if m = 4 ∨ m = 6 ∨ m = 9 ∨ m = 11 then 30
  else 31

/-- `time.Parse("2006-01-02T15:04:05", s)`, as an acceptance function. -/
def parseTS (s0 : List Char) : Option DateTime :=
  (getnum4 s0).bind fun py =>
  (expectCh '-' py.2).bind fun s1 =>
  (getnum2f s1).bind fun pmo =>
  (expectCh '-' pmo.2).bind fun s2 =>
  (getnum2f s2).bind fun pd =>
  (expectCh 'T' pd.2).bind fun s3 =>
  (getnumHr s3).bind fun ph =>
  (expectCh ':' ph.2).bind fun s4 =>
  (getnum2f s4).bind fun pmi =>
  (expectCh ':' pmi.2).bind fun s5 =>
  (getnum2f s5).bind fun psec =>
  if 24 ≤ ph.1 then none
  else if 60 ≤ pmi.1 then none
  else if 60 ≤ psec.1 then none
  else if psec.2 ≠ [] then none
  else if pmo.1 < 1 ∨ 12 < pmo.1 then none
  else if pd.1 < 1 ∨ daysIn pmo.1 py.1 < pd.1 then none
  else some ⟨py.1, pmo.1, pd.1, ph.1, pmi.1, psec.1⟩

/-- Outcome of `Timestamp.UnmarshalJSON`: a decoded value, a decode error
propagated to the caller, or a runtime panic of the out-of-bounds slice. -/
inductive TSResult where
  | goPanic
  | err
  | ok (t : DateTime)
deriving DecidableEq, Repr

/-- `Timestamp.UnmarshalJSON` from cve5.go:25-32. -/
def unmarshalTimestamp (b : List Char) : TSResult :=
  match trimTS b with
  | none => .goPanic
  | some s =>
    match parseTS s with
    | none => .err
    | some t => .ok t

/-! #### The spec-side timestamp grammar

The specification's four accepted encodings: a second-precision timestamp,
optionally followed by a fractional part and/or a UTC marker (`Z` or an
explicit numeric offset), all inside JSON quotes.  These definitions follow
the spec's words, to be compared with the decoder above. -/

/-- Zero-padded two-digit rendering. -/
def pad2Ch (n : Nat) : List Char := [digitChar (n / 10 % 10), digitChar (n % 10)]

/-- Zero-padded four-digit rendering. -/
def pad4Ch (n : Nat) : List Char :=
  [digitChar (n / 1000 % 10), digitChar (n / 100 % 10),
   digitChar (n / 10 % 10), digitChar (n % 10)]

/-- The canonical 19-character second-precision encoding of a value. -/
def renderTS (t : DateTime) : List Char :=
  pad4Ch t.year ++ '-' :: (pad2Ch t.month ++ '-' :: (pad2Ch t.day ++
    'T' :: (pad2Ch t.hour ++ ':' :: (pad2Ch t.minute ++ ':' :: pad2Ch t.second))))

/-- A calendar-valid value renderable in 4-digit years. -/
def validDT (t : DateTime) : Bool :=
  t.year ≤ 9999 && 1 ≤ t.month && t.month ≤ 12 && 1 ≤ t.day &&
    t.day ≤ daysIn t.month t.year && t.hour ≤ 23 && t.minute ≤ 59 &&
    t.second ≤ 59

/-- An explicit numeric UTC offset such as `+00:00`. -/
def offsetOK : List Char → Bool
  | [sg, h1, h2, cl, m1, m2] =>
    (sg = '+' || sg = '-') && isDigitCh h1 && isDigitCh h2 && cl = ':' &&
      isDigitCh m1 && isDigitCh m2
  | _ => false

/-- An optional UTC marker: nothing, `Z`, or a numeric offset. -/
def tzOK (l : List Char) : Bool := l = [] || l = ['Z'] || offsetOK l

/-- The allowed tail after the 19 leading characters: an optional fractional
part followed by an optional UTC marker. -/
def suffixOK (l : List Char) : Bool :=
  if l.head? = some '.' then
    (l.tail.takeWhile isDigitCh ≠ ([] : List Char)) &&
      tzOK (l.tail.dropWhile isDigitCh)
  else tzOK l

/-- Membership in the spec's recognized timestamp grammar: one of the four
encodings of some calendar-valid value, inside JSON quotes. -/
def tsGrammar (b : List Char) : Prop :=
  ∃ t sfx, validDT t = true ∧ suffixOK sfx = true ∧
    b = '"' :: (renderTS t ++ (sfx ++ ['"']))

/-! ### Lemmas about the timestamp decoder -/

theorem digitChar_mod_isDigit (k : Nat) : isDigitCh (digitChar (k % 10)) = true := by
  have h : k % 10 < 10 := Nat.mod_lt _ (by decide)
  set m := k % 10 with hm
  clear_value m
  interval_cases m <;> decide

theorem digitVal_digitChar_mod (k : Nat) : digitVal (digitChar (k % 10)) = k % 10 := by
  have h : k % 10 < 10 := Nat.mod_lt _ (by decide)
  set m := k % 10 with hm
  clear_value m
  interval_cases m <;> decide

theorem digitChar_mod_ne_quote (k : Nat) : digitChar (k % 10) ≠ '"' := by
  have h : k % 10 < 10 := Nat.mod_lt _ (by decide)
  set m := k % 10 with hm
  clear_value m
  interval_cases m <;> decide

theorem digit_ne_quote {c : Char} (h : isDigitCh c = true) : c ≠ '"' := by
  intro e
  subst e
  exact absurd h (by decide)

theorem getnum2f_pad2 (n : Nat) (r : List Char) :
    getnum2f (pad2Ch n ++ r) = some (10 * (n / 10 % 10) + n % 10, r) := by
  simp [pad2Ch, getnum2f, digitChar_mod_isDigit, digitVal_digitChar_mod]

theorem getnumHr_pad2 (n : Nat) (r : List Char) :
    getnumHr (pad2Ch n ++ r) = some (10 * (n / 10 % 10) + n % 10, r) := by
  simp [pad2Ch, getnumHr, digitChar_mod_isDigit, digitVal_digitChar_mod]

theorem getnum4_pad4 (n : Nat) (r : List Char) :
    getnum4 (pad4Ch n ++ r) =
      some (1000 * (n / 1000 % 10) + 100 * (n / 100 % 10) +
        10 * (n / 10 % 10) + n % 10, r) := by
  simp [pad4Ch, getnum4, digitChar_mod_isDigit, digitVal_digitChar_mod]

theorem expectCh_cons (c : Char) (r : List Char) : expectCh c (c :: r) = some r := by
  simp [expectCh]

theorem renderTS_length (t : DateTime) : (renderTS t).length = 19 := by
  simp [renderTS, pad4Ch, pad2Ch]

theorem quote_not_mem_pad2 (n : Nat) : '"' ∉ pad2Ch n := by
  intro h
  simp only [pad2Ch, List.mem_cons, List.not_mem_nil, or_false] at h
  rcases h with h | h <;> exact digitChar_mod_ne_quote _ h.symm

theorem quote_not_mem_pad4 (n : Nat) : '"' ∉ pad4Ch n := by
  intro h
  simp only [pad4Ch, List.mem_cons, List.not_mem_nil, or_false] at h
  rcases h with h | h | h | h <;> exact digitChar_mod_ne_quote _ h.symm

theorem quote_not_mem_renderTS (t : DateTime) : '"' ∉ renderTS t := by
  intro h
  simp only [renderTS, List.mem_append, List.mem_cons] at h
  rcases h with h | h | h | h | h | h | h | h | h | h | h <;>
    first
      | exact quote_not_mem_pad4 _ h
      | exact quote_not_mem_pad2 _ h
      | exact absurd h (by decide)

theorem quote_not_mem_of_offsetOK {l : List Char} (h : offsetOK l = true) :
    '"' ∉ l := by
  rcases l with _ | ⟨a, _ | ⟨b, _ | ⟨c, _ | ⟨d, _ | ⟨e, _ | ⟨f, _ | ⟨g, t⟩⟩⟩⟩⟩⟩⟩ <;>
    simp only [offsetOK] at h <;>
    try exact absurd h (by decide)
  rw [Bool.and_eq_true, Bool.and_eq_true, Bool.and_eq_true, Bool.and_eq_true,
    Bool.and_eq_true] at h
  obtain ⟨⟨⟨⟨⟨hsg, hb⟩, hc⟩, hd⟩, he⟩, hf⟩ := h
  intro hm
  simp only [List.mem_cons, List.not_mem_nil, or_false] at hm
  rcases hm with rfl | rfl | rfl | rfl | rfl | rfl
  · simp at hsg
  · exact absurd hb (by decide)
  · exact absurd hc (by decide)
  · exact absurd hd (by decide)
  · exact absurd he (by decide)
  · exact absurd hf (by decide)

theorem quote_not_mem_of_tzOK {l : List Char} (h : tzOK l = true) : '"' ∉ l := by
  unfold tzOK at h
  rw [Bool.or_eq_true, Bool.or_eq_true] at h
  rcases h with (h | h) | h
  · rw [decide_eq_true_eq] at h
    subst h
    simp
  · rw [decide_eq_true_eq] at h
    subst h
    decide
  · exact quote_not_mem_of_offsetOK h

theorem quote_not_mem_of_suffixOK {l : List Char} (h : suffixOK l = true) :
    '"' ∉ l := by
  unfold suffixOK at h
  split at h
  · rcases l with _ | ⟨c, r⟩
    · simp
    · rename_i hhd
      simp only [List.head?_cons, Option.some.injEq] at hhd
      subst hhd
      rw [Bool.and_eq_true] at h
      intro hm
      rcases List.mem_cons.mp hm with he | hr
      · exact absurd he (by decide)
      · rw [← List.takeWhile_append_dropWhile (p := isDigitCh) (l := r)] at hr
        rcases List.mem_append.mp hr with h3 | h3
        · exact digit_ne_quote (List.mem_takeWhile_imp h3) rfl
        · exact quote_not_mem_of_tzOK h.2 (by simpa using h3)
  · exact quote_not_mem_of_tzOK h

theorem dropWhile_quote_eq_self {l : List Char} (h : '"' ∉ l) :
    l.dropWhile (· = '"') = l := by
  cases l with
  | nil => rfl
  | cons x r =>
    have hx : ¬ (x = '"') := fun e => h (by simp [e])
    rw [List.dropWhile_cons, if_neg (by simpa using hx)]

theorem trimQuotes_wrap {xs : List Char} (hne : xs ≠ []) (hq : '"' ∉ xs) :
    trimQuotes ('"' :: (xs ++ ['"'])) = xs := by
  obtain ⟨a, t, rfl⟩ := List.exists_cons_of_ne_nil hne
  have ha : ¬ (a = '"') := fun e => hq (by simp [e])
  unfold trimQuotes
  rw [List.dropWhile_cons, if_pos (by decide), List.cons_append,
    List.dropWhile_cons, if_neg (by simpa using ha)]
  rw [List.reverse_cons, List.reverse_append]
  rw [show List.reverse ['"'] = ['"'] from rfl, List.singleton_append,
    List.cons_append, List.dropWhile_cons, if_pos (by decide)]
  have hnq : '"' ∉ t.reverse ++ [a] := by
    intro hm
    rcases List.mem_append.mp hm with h1 | h1
    · exact hq (by simp [List.mem_reverse.mp h1])
    · simp only [List.mem_singleton] at h1
      exact ha h1.symm
  rw [dropWhile_quote_eq_self hnq, List.reverse_append, List.reverse_reverse]
  rfl

theorem daysIn_le_31 (m y : Nat) : daysIn m y ≤ 31 := by
  unfold daysIn
  split
  · split <;> omega
  · split <;> omega

/-- `time.Parse` of the second-precision layout inverts the canonical
rendering of any calendar-valid value. -/
theorem parseTS_renderTS {t : DateTime} (h : validDT t = true) :
    parseTS (renderTS t) = some t := by
  obtain ⟨y, mo, d, hh, mi, ss⟩ := t
  have hb : y ≤ 9999 ∧ 1 ≤ mo ∧ mo ≤ 12 ∧ 1 ≤ d ∧ d ≤ daysIn mo y ∧
      hh ≤ 23 ∧ mi ≤ 59 ∧ ss ≤ 59 := by
    simpa [validDT, and_assoc] using h
  obtain ⟨h1, h2, h3, h4, h5, h6, h7, h8⟩ := hb
  have hss : getnum2f (pad2Ch ss) = some (10 * (ss / 10 % 10) + ss % 10, []) := by
    simpa using getnum2f_pad2 ss []
  simp only [parseTS, renderTS, getnum4_pad4, Option.some_bind, expectCh_cons,
    getnum2f_pad2, getnumHr_pad2, hss]
  have ey : 1000 * (y / 1000 % 10) + 100 * (y / 100 % 10) +
      10 * (y / 10 % 10) + y % 10 = y := by omega
  have emo : 10 * (mo / 10 % 10) + mo % 10 = mo := by omega
  have hd31 : d ≤ 31 := le_trans h5 (daysIn_le_31 mo y)
  have ed : 10 * (d / 10 % 10) + d % 10 = d := by omega
  have ehh : 10 * (hh / 10 % 10) + hh % 10 = hh := by omega
  have emi : 10 * (mi / 10 % 10) + mi % 10 = mi := by omega
  have ess : 10 * (ss / 10 % 10) + ss % 10 = ss := by omega
  rw [ey, emo, ed, ehh, emi, ess]
  rw [if_neg (by omega), if_neg (by omega), if_neg (by omega), if_neg (by simp),
    if_neg (by omega), if_neg (by omega)]

/-- A timestamp value with an unrecognized tail after the 19-character
second-precision part: `"2010-05-24T00:00:00abcde"` (quoted). -/
def badTS : List Char := chars "\"2010-05-24T00:00:00abcde\""

/-- Claim C4 counterexample: the decoder accepts a value outside the recognized
grammar (a valid 19-character timestamp followed by the garbage tail
`abcde`), because it truncates to 19 characters before parsing; so "any
value outside this grammar makes the record decode fail" is false. -/
theorem c4_timestamp_counterexample :
    ¬ (∀ b : List Char, ¬ tsGrammar b →
        ∀ t : DateTime, unmarshalTimestamp b ≠ .ok t) := by
  intro hclaim
  have hng : ¬ tsGrammar badTS := by
    rintro ⟨t, sfx, hv, hs, heq⟩
    have hr : (renderTS t).length = 19 := renderTS_length t
    have h20 : List.drop 20 ('"' :: (renderTS t ++ (sfx ++ ['"']))) =
        sfx ++ ['"'] := by
      rw [show (20 : Nat) = 19 + 1 from rfl, List.drop_succ_cons, ← hr,
        List.drop_left]
    have hcomp : List.drop 20 badTS = chars "abcde" ++ ['"'] := by decide
    rw [heq, h20] at hcomp
    have hsfx : sfx = chars "abcde" := List.append_cancel_right hcomp
    rw [hsfx] at hs
    exact absurd hs (by decide)
  exact hclaim badTS hng ⟨2010, 5, 24, 0, 0, 0⟩ (by decide)

/-- Claim C4 (amended): every timestamp in the four recognized encodings (plain
second-precision, fractional, trailing `Z`, numeric UTC offset, including
fraction-plus-marker combinations) decodes successfully to the value
truncated to whole-second precision; and a value whose quote-stripped,
19-character-truncated prefix does not parse as a plain second-precision
timestamp fails the decode.  (As stated the claim is false: a value outside
the grammar whose first 19 characters are a valid timestamp is accepted, the
unrecognized tail being discarded by the truncation.) -/
theorem c4_timestamp_amended :
    (∀ (t : DateTime) (sfx : List Char), validDT t = true → suffixOK sfx = true →
        unmarshalTimestamp ('"' :: (renderTS t ++ (sfx ++ ['"']))) = .ok t)
    ∧ (∀ b s, trimTS b = some s → parseTS s = none → unmarshalTimestamp b = .err) := by
  constructor
  · intro t sfx hv hsfx
    have hq1 : '"' ∉ renderTS t := quote_not_mem_renderTS t
    have hq2 : '"' ∉ sfx := quote_not_mem_of_suffixOK hsfx
    have hrl : (renderTS t).length = 19 := renderTS_length t
    have hne : renderTS t ++ sfx ≠ [] := by
      intro h
      have := congrArg List.length h
      simp [hrl] at this
    have hqx : '"' ∉ renderTS t ++ sfx := by
      intro hm
      rcases List.mem_append.mp hm with h | h
      · exact hq1 h
      · exact hq2 h
    have hb : '"' :: (renderTS t ++ (sfx ++ ['"'])) =
        '"' :: ((renderTS t ++ sfx) ++ ['"']) := by
      rw [List.append_assoc]
    have htq : trimQuotes ('"' :: ((renderTS t ++ sfx) ++ ['"'])) =
        renderTS t ++ sfx := trimQuotes_wrap hne hqx
    have hlb : 19 ≤ ('"' :: ((renderTS t ++ sfx) ++ ['"'])).length := by
      simp [hrl]
      omega
    have hlx : 19 ≤ (renderTS t ++ sfx).length := by
      simp [hrl]
    have htake : (renderTS t ++ sfx).take 19 = renderTS t := by
      rw [← hrl, List.take_left]
    have htrim : trimTS ('"' :: ((renderTS t ++ sfx) ++ ['"'])) =
        some (renderTS t) := by
      unfold trimTS
      rw [if_pos hlb, htq, if_pos hlx, htake]
    rw [hb]
    simp only [unmarshalTimestamp, htrim, parseTS_renderTS hv]
  · intro b s h1 h2
    simp only [unmarshalTimestamp, h1, h2]

theorem c4_timestamp_amended_witness :
    unmarshalTimestamp
        ('"' :: (renderTS ⟨2023, 12, 13, 0, 0, 0⟩ ++ (chars "+00:00" ++ ['"']))) =
      .ok ⟨2023, 12, 13, 0, 0, 0⟩ :=
  c4_timestamp_amended.1 ⟨2023, 12, 13, 0, 0, 0⟩ (chars "+00:00")
    (by decide) (by decide)

/-- A raw timestamp token of 20 bytes whose quote-stripped form has only 18
characters: `"2010-05-24T00:00:0"` (quoted). -/
def shortTS : List Char := chars "\"2010-05-24T00:00:0\""

/-- Claim C10: the bounds reasoning in `trim` is wrong.  `trim` guards the slice
`s[:19]` with `len(b) >= 19`, testing the raw bytes `b` instead of the
quote-stripped string `s`; on a raw input of 20 bytes whose stripped form
has 18 characters the guard passes while the slice is out of bounds, so the
decoder panics instead of returning a value or an error. -/
theorem c10_trim_bounds :
    19 ≤ shortTS.length
    ∧ (trimQuotes shortTS).length = 18
    ∧ ¬ 19 ≤ (trimQuotes shortTS).length
    ∧ trimTS shortTS = none
    ∧ unmarshalTimestamp shortTS = .goPanic := by decide

/-! ### The fetch / decode / render pipeline and the run loop
(`cmd/cvecat/main.go:89-187`)

The HTTP client, the JSON decoder and the template engine are Go standard
library collaborators, so they enter the embedding as an explicit
environment of oracles; the repository's own control flow (`main`, `run`,
`cat`, `read`) is embedded exactly.  Every observable effect — the fetch
attempt, the decode and render invocations, each write to standard error
and standard output — is recorded as an event so that claims about what the
pipeline does and does not do per identifier are statable. -/

/-- Go `unicode.IsSpace` restricted to ASCII (all inputs of interest). -/
def isSpaceCh (c : Char) : Bool :=
  c = ' ' || c = '\t' || c = '\n' || c = '\r' || c = '\x0b' || c = '\x0c'

/-- Go `strings.TrimSpace` (ASCII fragment). -/
def trimSpace (s : List Char) : List Char :=
  ((s.dropWhile isSpaceCh).reverse.dropWhile isSpaceCh).reverse

/-- What `http.Get` + `io.ReadAll` produce for a URL: a transport-level
error, or a status code with a body. -/
inductive FetchRes where
  | transport (msg : List Char)
  | resp (status : Nat) (body : List Char)

/-- The fragment of the decoded CVE record the control flow inspects:
`cve.Containers.Cna.Descriptions` (the rest is consumed opaquely by the
template renderer oracle). -/
structure CveRec where
  descriptions : List (List Char)

/-- External collaborators: the network, standard input, the JSON decoder
and the template engine (`format` = template parse + execute, returning the
rendered bytes so far and an optional error), plus the ambient current
year read by `parseID`. -/
structure Env where
  fetch : List Char → FetchRes
  stdinBody : List Char
  decode : List Char → Except (List Char) CveRec
  render : List Char → CveRec → List Char × Option (List Char)
  nowYear : List Char

/-- Process-wide configuration (`argvT`). -/
structure Argv where
  format : List Char
  dryrun : Bool
  verbose : Int

/-- The per-identifier failures `run`/`cat` return to the main loop. -/
inductive CatErr where
  | transport (msg : List Char)
  | status (code : Nat) (body : List Char)
  | decodeFail (msg : List Char)
  | noDescr
  | renderFail (msg : List Char)
deriving DecidableEq, Repr

/-- A message written to standard error. -/
inductive StderrMsg where
  | parseHint (id : List Char) (e : ParseErr)
  | urlEcho (url : List Char)
  | bodyEcho (body : List Char)
  | recEcho
  | errLine (e : CatErr)
  | helperErr (msg : List Char)
deriving DecidableEq, Repr

/-- An observable effect of the pipeline. -/
inductive Ev where
  | fetch (url : List Char)
  | decode (body : List Char)
  | render
  | err (m : StderrMsg)
  | out (buf : List Char)
deriving DecidableEq, Repr

/-- `read` from main.go:165-187: `-` reads standard input; otherwise one
HTTP GET, whose non-200 status is an error carrying the code and the
whitespace-trimmed body. -/
def readF (env : Env) (url : List Char) : Except CatErr (List Char) × List Ev :=
  if url = ['-'] then (.ok env.stdinBody, [])
  else
    match env.fetch url with
    | .transport m => (.error (.transport m), [.fetch url])
    | .resp code body =>
      if code ≠ 200 then (.error (.status code (trimSpace body)), [.fetch url])
      else (.ok body, [.fetch url])

/-- `cat` from main.go:137-163: fetch, short-circuit on empty body, decode,
check for a description, render.  Returns the bytes and optional error that
`cat` returns, paired with the events. -/
def catF (env : Env) (argv : Argv) (url : List Char) :
    (List Char × Option CatErr) × List Ev :=
  match readF env url with
  | (.error e, evs) => (([], some e), evs)
  | (.ok body, evs) =>
    if body = [] then ((body, none), evs)
    else
      let evs2 := evs ++ (if 2 < argv.verbose then [Ev.err (.bodyEcho body)] else [])
      match env.decode body with
      | .error m => ((body, some (.decodeFail m)), evs2 ++ [Ev.decode body])
      | .ok cv =>
        let evs3 := (evs2 ++ [Ev.decode body]) ++
          (if 3 < argv.verbose then [Ev.err .recEcho] else [])
        if cv.descriptions.length = 0 then ((body, some .noDescr), evs3)
        else
          match env.render argv.format cv with
          | (b, some m) => ((b, some (.renderFail m)), evs3 ++ [Ev.render])
          | (b, none) => ((b, none), evs3 ++ [Ev.render])

/-- `run` from main.go:119-135: parse failures are swallowed (reported only
at `verbose > 0`) and return no error; dry runs stop after URL
construction. -/
def runID (env : Env) (argv : Argv) (cve : List Char) :
    (List Char × Option CatErr) × List Ev :=
  match geturl env.nowYear cve with
  | .err e =>
    (([], none), if 0 < argv.verbose then [Ev.err (.parseHint cve e)] else [])
  | .goPanic => (([], none), [])
  | .ok url =>
    let evs := if 1 < argv.verbose then [Ev.err (.urlEcho url)] else []
    if argv.dryrun then (([], none), evs)
    else
      match catF env argv url with
      | (r, evs2) => (r, evs ++ evs2)

/-- One iteration of the scanner loop in `main` (main.go:99-112): trim the
line, skip it when blank, run the pipeline, report an error to standard
error, or print a non-empty rendering. -/
def lineEvs (env : Env) (argv : Argv) (l : List Char) : List Ev :=
  if trimSpace l = [] then []
  else
    match runID env argv (trimSpace l) with
    | ((_, some e), evs) => evs ++ [Ev.err (.errLine e)]
    | ((buf, none), evs) => evs ++ (if buf.length ≠ 0 then [Ev.out buf] else [])

/-- The scanner loop of `main` over its input lines. -/
def loopLines (env : Env) (argv : Argv) : List (List Char) → List Ev
  | [] => []
  | l :: rest => lineEvs env argv l ++ loopLines env argv rest

/-! ### The regex-substitution template helper (`format`, part_001:509-521)

Go's `regexp` package is a standard-library collaborator, modelled as an
engine with a fallible `compile` and a total `replaceAll` (the behavior of
`Regexp.ReplaceAllString`: replace every non-overlapping match).  The
repository's own code is the helper's control flow: on a compile error it
writes a diagnostic to standard error and returns the input text unchanged;
its Go type `func(s, expr, repl string) string` cannot signal an error to
the template engine, so rendering always continues. -/

structure RegexEngine (ρ : Type) where
  compile : List Char → Except (List Char) ρ
  replaceAll : ρ → List Char → List Char → List Char

/-- The `replace` template function from part_001:511-518. -/
def replaceHelper {ρ : Type} (eng : RegexEngine ρ) (s expr repl : List Char) :
    List Char × List Ev :=
  match eng.compile expr with
  | .error m => (s, [Ev.err (.helperErr m)])
  | .ok re => (eng.replaceAll re s repl, [])

/-- A benign environment: every fetch succeeds with an empty body. -/
def env0 : Env :=
  ⟨fun _ => .resp 200 [], [], fun _ => .error [], fun _ _ => ([], none),
   chars "2025"⟩

/-- An environment whose every fetch returns status 404 with body
`" not found "`. -/
def env404 : Env :=
  ⟨fun _ => .resp 404 (chars " not found "), [], fun _ => .error [],
   fun _ _ => ([], none), chars "2025"⟩

/-- Default configuration: verbosity 0, no dry run. -/
def argv0 : Argv := ⟨[], false, 0⟩

/-- Claim C5 counterexample: at the default verbosity 0 a parse failure writes
nothing to the diagnostic stream — the first identifier below fails with
`invalidYear`, yet the only event of the whole batch is the fetch of the
second identifier.  So "the run loop writes the failure to the diagnostic
stream" is false for the parse-failure kind (the loop does continue). -/
theorem c5_counterexample :
    geturl env0.nowYear (chars "CVE-19-5007") = .err .invalidYear
    ∧ loopLines env0 argv0 [chars "CVE-19-5007", chars "CVE-2019-5007"] =
        [Ev.fetch (mkURL cveChars (chars "2019") (chars "5007"))] := by
  decide

/-- Claim C5 (amended): the loop always continues with the remaining identifiers
whatever a line produced; an identifier whose pipeline returns an error
(fetch/status, decode, missing description, render) always gets an `error:`
line on the diagnostic stream; a parse failure is reported on the
diagnostic stream when the verbosity is positive and is silently skipped at
verbosity 0; no failure terminates processing. -/
theorem c5_loop_isolation (env : Env) (argv : Argv) (l : List Char)
    (rest : List (List Char)) :
    loopLines env argv (l :: rest) = lineEvs env argv l ++ loopLines env argv rest
    ∧ (∀ e buf evs, trimSpace l ≠ [] →
        runID env argv (trimSpace l) = ((buf, some e), evs) →
        lineEvs env argv l = evs ++ [Ev.err (.errLine e)])
    ∧ (∀ e, trimSpace l ≠ [] → geturl env.nowYear (trimSpace l) = .err e →
        0 < argv.verbose →
        lineEvs env argv l = [Ev.err (.parseHint (trimSpace l) e)])
    ∧ (∀ e, trimSpace l ≠ [] → geturl env.nowYear (trimSpace l) = .err e →
        argv.verbose ≤ 0 → lineEvs env argv l = []) := by
  refine ⟨rfl, ?_, ?_, ?_⟩
  · intro e buf evs hne hrun
    simp only [lineEvs, if_neg hne, hrun]
  · intro e hne hget hv
    have hrun : runID env argv (trimSpace l) =
        (([], none), [Ev.err (.parseHint (trimSpace l) e)]) := by
      simp only [runID, hget, if_pos hv]
    simp [lineEvs, if_neg hne, hrun]
  · intro e hne hget hv
    have hrun : runID env argv (trimSpace l) = (([], none), []) := by
      simp only [runID, hget, if_neg (by omega : ¬ (0 : Int) < argv.verbose)]
    simp [lineEvs, if_neg hne, hrun]

theorem c5_loop_isolation_witness :
    lineEvs env404 argv0 (chars " CVE-2019-5007 ") =
      [Ev.fetch (mkURL cveChars (chars "2019") (chars "5007")),
       Ev.err (.errLine (.status 404 (chars "not found")))] :=
  (c5_loop_isolation env404 argv0 (chars " CVE-2019-5007 ") []).2.1
    (.status 404 (chars "not found")) []
    [Ev.fetch (mkURL cveChars (chars "2019") (chars "5007"))]
    (by decide) (by decide)

/-- Claim C7: a fetched response with a non-200 status makes `cat` fail with an
error carrying the status code and the whitespace-trimmed body, after the
fetch event only — no decode, no render — and the loop goes on to the next
identifier; conversely a 200 response with an empty body is no error and
produces no output line and no diagnostic. -/
theorem c7_status_failure (env : Env) (argv : Argv) (url body : List Char)
    (code : Nat) (hurl : url ≠ ['-']) :
    (env.fetch url = .resp code body → code ≠ 200 →
      catF env argv url =
        (([], some (.status code (trimSpace body))), [Ev.fetch url]))
    ∧ (env.fetch url = .resp 200 [] →
      catF env argv url = (([], none), [Ev.fetch url]))
    ∧ (∀ l rest, loopLines env argv (l :: rest) =
        lineEvs env argv l ++ loopLines env argv rest)
    ∧ (∀ cve, trimSpace cve = cve → cve ≠ [] → geturl env.nowYear cve = .ok url →
        argv.dryrun = false → env.fetch url = .resp 200 [] →
        lineEvs env argv cve =
          (if 1 < argv.verbose then [Ev.err (.urlEcho url)] else []) ++
            [Ev.fetch url]) := by
  have hok : env.fetch url = .resp 200 [] →
      catF env argv url = (([], none), [Ev.fetch url]) := by
    intro hf
    have hrd : readF env url = (.ok [], [.fetch url]) := by
      unfold readF
      rw [if_neg hurl, hf]
      show (if (200 : Nat) ≠ 200 then
          (Except.error (CatErr.status 200 (trimSpace [])), [Ev.fetch url])
        else (Except.ok ([] : List Char), [Ev.fetch url])) = _
      rw [if_neg (by simp)]
    simp [catF, hrd]
  refine ⟨?_, hok, fun l rest => rfl, ?_⟩
  · intro hf hc
    have hrd : readF env url =
        (.error (.status code (trimSpace body)), [.fetch url]) := by
      unfold readF
      rw [if_neg hurl, hf]
      show (if code ≠ 200 then
          (Except.error (CatErr.status code (trimSpace body)), [Ev.fetch url])
        else (Except.ok body, [Ev.fetch url])) = _
      rw [if_pos hc]
    simp [catF, hrd]
  · intro cve htr hne hget hdry hf
    have hrun : runID env argv cve =
        (([], none),
          (if 1 < argv.verbose then [Ev.err (.urlEcho url)] else []) ++
            [Ev.fetch url]) := by
      simp [runID, hget, hdry, hok hf]
    simp [lineEvs, htr, hne, hrun]

theorem c7_status_failure_witness :
    catF env404 argv0 (chars "u") =
      (([], some (.status 404 (chars "not found"))), [Ev.fetch (chars "u")]) :=
  (c7_status_failure env404 argv0 (chars "u") (chars " not found ") 404
    (by decide)).1 rfl (by decide)

/-- Claim C9: the regex-substitution template helper degrades gracefully: when the
pattern fails to compile it writes a diagnostic to the error stream and
returns the input text unmodified (its Go type cannot propagate an error,
so template rendering continues); when the pattern compiles it returns the
engine's replace-all-non-overlapping-matches result. -/
theorem c9_replace_helper {ρ : Type} (eng : RegexEngine ρ)
    (s expr repl : List Char) :
    (∀ m, eng.compile expr = .error m →
        replaceHelper eng s expr repl = (s, [Ev.err (.helperErr m)]))
    ∧ (∀ re, eng.compile expr = .ok re →
        replaceHelper eng s expr repl = (eng.replaceAll re s repl, [])) := by
  constructor
  · intro m hm
    simp only [replaceHelper, hm]
  · intro re hre
    simp only [replaceHelper, hre]

/-- An engine that rejects every pattern. -/
def engFail : RegexEngine Unit :=
  ⟨fun _ => .error (chars "bad pattern"), fun _ s _ => s⟩

theorem c9_replace_helper_witness :
    replaceHelper engFail (chars "text") (chars "(") (chars "x") =
      (chars "text", [Ev.err (.helperErr (chars "bad pattern"))]) :=
  (c9_replace_helper engFail (chars "text") (chars "(") (chars "x")).1
    (chars "bad pattern") rfl

end Cvecat
